import Mathlib

/-!
Shallow embedding of `src/rtp.py` (vidarr/python-rtp): an RTP (RFC 3550) frame
codec.  Byte strings are modelled as `List Nat` (each entry one octet), Python's
unbounded signed integers as `Int` where signedness is observable (the
`payload_type` argument) and as `Nat` elsewhere, and Python exceptions as the
`Except` monad with an explicit error type enumerating the raise sites of the
source.  `struct.pack`/`struct.unpack` with the `">BBHII"` and `">I"` formats
are modelled by explicit big-endian byte arithmetic, including the
`struct.error` they raise when a value does not fit the requested width or a
buffer is too short.
-/

namespace RtpPy

/-- The field vocabulary: `class Rtp(Enum)` of `src/rtp.py`. -/
inductive Rtp where
  | Payload
  | PayloadType
  | Ssrc
  | Csrcs
  | Timestamp
  | SequenceNumber
  | Version
  | Marker
  | Padding
deriving DecidableEq

/-- The numeric `.value` of each enum member, as in the source. -/
def Rtp.value : Rtp → Nat
  | .Payload => 0
  | .PayloadType => 1
  | .Ssrc => 2
  | .Csrcs => 3
  | .Timestamp => 4
  | .SequenceNumber => 5
  | .Version => 6
  | .Marker => 7
  | .Padding => 8

/-- A value stored in the decoder's `data` list: a Python int (`nat`), a byte
string or list of ints (`list`), or Python `None` (`none`).  Python's `==`
identifies `True`/`False` with `1`/`0`, and the decoder stores the marker as
the int `(h2 & 0x80) >> 7`, so booleans are represented by `nat 0 / nat 1`. -/
inductive FieldValue where
  | nat : Nat → FieldValue
  | list : List Nat → FieldValue
  | none : FieldValue
deriving DecidableEq

/-- The Python exceptions raised by the source, one constructor per raise
site.  The spec's taxonomy calls the three bit-width violations
(`payloadTypeOutOfRange`, `csrcOutOfRange`, `paddingTooLong`) RangeError and
the others ValueError; `tooManyCsrcs` carries the actual count, as the
source's message does.  `structError` is `struct.error` from `pack`/`unpack`;
`bytesValueError` is the `ValueError` that `bytes(...)` raises on a non-byte
entry; `indexError` is the `IndexError` of `payload[-1]` on an empty
sequence. -/
inductive PyError where
  | payloadTypeOutOfRange
  | versionInvalid
  | tooManyCsrcs : Nat → PyError
  | csrcOutOfRange
  | paddingTooLong
  | structError
  | bytesValueError
  | indexError
deriving DecidableEq

/-- The raise sites the spec's error taxonomy classifies as RangeError: a
numeric field exceeding its bit-width budget. -/
def isRangeError : PyError → Bool
  | .payloadTypeOutOfRange => true
  | .csrcOutOfRange => true
  | .paddingTooLong => true
  | _ => false

/-- Big-endian bytes of a 16-bit word, as `pack(">H", n)` emits them. -/
def pack16 (n : Nat) : List Nat := [n / 256 % 256, n % 256]

/-- Big-endian bytes of a 32-bit word, as `pack(">I", n)` emits them. -/
def pack32 (n : Nat) : List Nat :=
  [n / 16777216 % 256, n / 65536 % 256, n / 256 % 256, n % 256]

/-- `unpack(">I", bs)`: requires exactly four bytes, else `struct.error`. -/
def unpack32 : List Nat → Except PyError Nat
  | [a, b, c, d] => .ok (a * 16777216 + b * 65536 + c * 256 + d)
  | _ => .error .structError

/-- `parse_32bit_nums_big_endian(num, inbytes)` from `decode`: reads `num`
consecutive 32-bit big-endian words from the front of `inbytes` (the source
slices `inbytes[i*4 : i*4+4]`; the stray `print` is I/O noise with no effect
on the returned value and is not modelled). -/
def parse_32bit_nums_big_endian : Nat → List Nat → Except PyError (List Nat)
  | 0, _ => .ok []
  | n + 1, inbytes =>
    match unpack32 (inbytes.take 4) with
    | .error e => .error e
    | .ok v =>
      match parse_32bit_nums_big_endian n (inbytes.drop 4) with
      | .error e => .error e
      | .ok vs => .ok (v :: vs)

/-- Modelled from the spec: `index_after_extension_header` is called by
`decode` (`src/rtp.py:154`) but its definition is absent from the repository's
source.  Per spec §4.2 step 4 and §9 (RFC 3550 §5.3.1), the extension block
beginning at the start of the given byte slice is a 16-bit profile
identifier, a 16-bit length counted in 32-bit words, then `length` 32-bit
words; the function returns the index just past it within the slice. -/
def index_after_extension_header (bs : List Nat) : Nat :=
  4 + 4 * (bs.getD 2 0 * 256 + bs.getD 3 0)

/-- `get_field` of the closure returned by `decode`: look the field up in the
`data` list by its enum value.  (The source's `i in Rtp` membership guard
cannot fail here because `Rtp` is a closed inductive type.) -/
def get_field (data : List FieldValue) (i : Rtp) : FieldValue :=
  data.getD i.value .none

/-- Result of the variadic accessor `get_fields`: a single value for one
identifier, a list for several. -/
inductive QueryResult where
  | single : FieldValue → QueryResult
  | multi : List FieldValue → QueryResult
deriving DecidableEq

/-- `get_fields(index, *more_indices)`: the field accessor `decode` returns. -/
def get_fields (data : List FieldValue) (index : Rtp) (more_indices : List Rtp) :
    QueryResult :=
  if more_indices = [] then .single (get_field data index)
  else .multi (get_field data index :: more_indices.map (get_field data))

/-- `decode(frame)` from `src/rtp.py:89-166`.  Returns the fully populated
`data` list the accessor closes over (fields indexed by `Rtp.value`), or the
exception the Python code raises.  The twelve header bytes mirror
`unpack(">BBHII", frame[:12])`, which raises `struct.error` on a shorter
buffer. -/
def decode (frame : List Nat) : Except PyError (List FieldValue) :=
  match frame with
  | b0 :: b1 :: b2 :: b3 :: b4 :: b5 :: b6 :: b7 :: b8 :: b9 :: b10 :: b11 :: rest =>
    let h1 := b0
    let h2 := b1
    let seq := b2 * 256 + b3
    let ts := b4 * 16777216 + b5 * 65536 + b6 * 256 + b7
    let ssrc := b8 * 16777216 + b9 * 65536 + b10 * 256 + b11
    let data0 : List FieldValue := List.replicate 9 FieldValue.none
    let data1 := data0.set Rtp.SequenceNumber.value (.nat seq)
    let data2 := data1.set Rtp.Timestamp.value (.nat ts)
    let data3 := data2.set Rtp.Ssrc.value (.nat ssrc)
    let data4 := data3.set Rtp.PayloadType.value (.nat (h2 &&& 0x7f))
    let data5 := data4.set Rtp.Marker.value (.nat ((h2 &&& 0x80) >>> 7))
    let data6 := data5.set Rtp.Version.value (.nat ((h1 &&& 0xc0) >>> 6))
    let num_csrcs := h1 &&& 0x0f
    match parse_32bit_nums_big_endian num_csrcs rest with
    | .error e => .error e
    | .ok csrcs =>
      let data7 := data6.set Rtp.Csrcs.value (.list csrcs)
      let read_index := num_csrcs * 4 + 12
      let read_index2 :=
        if h1 &&& 0x10 ≠ 0 then index_after_extension_header (frame.drop read_index)
        else read_index
      let payload := frame.drop read_index2
      if h1 &&& 0x20 ≠ 0 then
        match payload.getLast? with
        | Option.none => .error .indexError
        | Option.some padding_length =>
          let data8 := data7.set Rtp.Padding.value
            (.list ((payload.take (payload.length - 1)).drop
              (payload.length - (padding_length + 1))))
          let payload2 := payload.take (payload.length - (padding_length + 1))
          .ok (data8.set Rtp.Payload.value (.list payload2))
      else
        .ok (data7.set Rtp.Payload.value (.list payload))
  | _ => .error .structError

/-- The csrc emission loop of `encode`: check each id against `0xffffffff`,
then append its four big-endian bytes. -/
def packCsrcs : List Nat → Except PyError (List Nat)
  | [] => .ok []
  | c :: cs =>
    if 0xffffffff < c then .error .csrcOutOfRange
    else
      match packCsrcs cs with
      | .error e => .error e
      | .ok bs => .ok (pack32 c ++ bs)

/-- `encode(ssrc, payload_type, payload, seq, timestamp, **args)` from
`src/rtp.py:170-233`.  The keyword arguments with their defaults
(`version=2`, `csrcs=[]`, `padding=[]`, `marker=False`) are explicit
parameters here; callers modelling a defaulted call pass those values.
`payload_type` is an `Int` because the source's `0x7f < payload_type` guard
and `payload_type & 0x7f` masking are signed Python-int operations.  The
`">B"` widths of `pack(">BBHII", ...)` cannot fail (`h1 ≤ 175` once the
version is validated, and `h2 = (payload_type & 0x7f) [| 0x80] ∈ [0, 255]`
for every integer), so only the `">H"`/`">I"` width checks are modelled. -/
def encode (ssrc : Nat) (payload_type : Int) (payload : List Nat) (seq : Nat)
    (timestamp : Nat) (version : Nat) (csrcs : List Nat) (padding : List Nat)
    (marker : Bool) : Except PyError (List Nat) :=
  if (0x7f : Int) < payload_type then .error .payloadTypeOutOfRange
  else if ¬ (version = 1 ∨ version = 2) then .error .versionInvalid
  else if 15 < csrcs.length then .error (.tooManyCsrcs csrcs.length)
  else
    let h1a := version <<< 6
    let h1b := if padding ≠ [] then h1a ||| 0x20 else h1a
    let h1 := h1b + csrcs.length
    let h2a : Int := Int.land payload_type 0x7f
    let h2 : Int := if marker then Int.lor h2a 0x80 else h2a
    if 0xffff < seq ∨ 0xffffffff < timestamp ∨ 0xffffffff < ssrc then
      .error .structError
    else
      let header := h1 :: h2.toNat :: (pack16 seq ++ pack32 timestamp ++ pack32 ssrc)
      match packCsrcs csrcs with
      | .error e => .error e
      | .ok csrcBytes =>
        if payload.any (fun b => decide (255 < b)) then .error .bytesValueError
        else if 0xff < padding.length then .error .paddingTooLong
        else if padding ≠ [] then
          if padding.any (fun b => decide (255 < b)) then .error .bytesValueError
          else .ok (header ++ csrcBytes ++ payload ++ padding ++ [padding.length])
        else .ok (header ++ csrcBytes ++ payload)

/-- Concatenation of the big-endian words the csrc loop emits on success. -/
def flat32 : List Nat → List Nat
  | [] => []
  | c :: cs => pack32 c ++ flat32 cs

/-- The bytes `encode` appends after the payload: nothing when `padding` is
empty, else the padding bytes followed by the one-octet padding length. -/
def padTail (padding : List Nat) : List Nat :=
  if padding = [] then [] else padding ++ [padding.length]

/-- The shape of every buffer `encode` returns: two header octets, the three
big-endian header words, the csrc words, the payload, and the padding tail. -/
def wireFrame (h1 h2 seq ts ssrc : Nat) (csrcs payload padding : List Nat) :
    List Nat :=
  h1 :: h2 :: (pack16 seq ++ pack32 ts ++ pack32 ssrc ++
    (flat32 csrcs ++ (payload ++ padTail padding)))

/-- The csrc loop succeeds exactly on 32-bit values, emitting `flat32`. -/
theorem packCsrcs_ok (cs : List Nat) (hc : ∀ c ∈ cs, c ≤ 4294967295) :
    packCsrcs cs = .ok (flat32 cs) := by
  induction cs with
  | nil => rfl
  | cons c cs ih =>
    have h1 : ¬ 4294967295 < c := by
      have := hc c (by simp)
      omega
    have h2 : packCsrcs cs = .ok (flat32 cs) := ih fun x hx => hc x (by simp [hx])
    simp [packCsrcs, if_neg h1, h2, flat32]

/-- The csrc loop raises `csrcOutOfRange` as soon as a value exceeds 32 bits. -/
theorem packCsrcs_err (cs : List Nat) (hc : ∃ c ∈ cs, 4294967295 < c) :
    packCsrcs cs = .error .csrcOutOfRange := by
  induction cs with
  | nil => simp at hc
  | cons c cs ih =>
    by_cases h : 4294967295 < c
    · simp [packCsrcs, if_pos h]
    · obtain ⟨x, hx, hxb⟩ := hc
      rcases List.mem_cons.mp hx with rfl | hx'
      · omega
      · simp [packCsrcs, if_neg h, ih ⟨x, hx', hxb⟩]

/-- Length of the emitted csrc words. -/
theorem flat32_length (cs : List Nat) : (flat32 cs).length = cs.length * 4 := by
  induction cs with
  | nil => rfl
  | cons c cs ih =>
    simp [flat32, pack32, ih]
    omega

/-- Parsing the emitted csrc words from the front of any longer buffer
recovers the original values in order. -/
theorem parse_flat (cs : List Nat) (tail : List Nat)
    (hc : ∀ c ∈ cs, c ≤ 4294967295) :
    parse_32bit_nums_big_endian cs.length (flat32 cs ++ tail) = .ok cs := by
  induction cs with
  | nil => rfl
  | cons c cs ih =>
    have hcv : c ≤ 4294967295 := hc c (by simp)
    have hval : c / 16777216 % 256 * 16777216 + c / 65536 % 256 * 65536 +
        c / 256 % 256 * 256 + c % 256 = c := by omega
    have htl : parse_32bit_nums_big_endian cs.length (flat32 cs ++ tail) = .ok cs :=
      ih fun x hx => hc x (by simp [hx])
    simp only [List.length_cons, flat32, List.cons_append, List.append_assoc]
    simp only [parse_32bit_nums_big_endian, pack32, List.cons_append,
      List.take_succ_cons, List.take_zero, unpack32, List.drop_succ_cons,
      List.drop_zero, hval]
    simp only [List.nil_append, htl]

/-- Bit-level facts about the first header octet for each of the four
version/padding cases the encoder can produce. -/
theorem h1_facts (cc : Nat) (h : cc ≤ 15) :
    ((64 + cc) &&& 15 = cc ∧ (64 + cc) &&& 16 = 0 ∧ (64 + cc) &&& 32 = 0 ∧
      ((64 + cc) &&& 192) >>> 6 = 1) ∧
    ((96 + cc) &&& 15 = cc ∧ (96 + cc) &&& 16 = 0 ∧ (96 + cc) &&& 32 = 32 ∧
      ((96 + cc) &&& 192) >>> 6 = 1) ∧
    ((128 + cc) &&& 15 = cc ∧ (128 + cc) &&& 16 = 0 ∧ (128 + cc) &&& 32 = 0 ∧
      ((128 + cc) &&& 192) >>> 6 = 2) ∧
    ((160 + cc) &&& 15 = cc ∧ (160 + cc) &&& 16 = 0 ∧ (160 + cc) &&& 32 = 32 ∧
      ((160 + cc) &&& 192) >>> 6 = 2) := by
  interval_cases cc <;> decide

/-- Bit-level facts about the second header octet for a 7-bit payload type,
with and without the marker bit. -/
theorem byte_facts (p : Nat) (h : p ≤ 127) :
    p &&& 127 = p ∧ (p ||| 128) &&& 127 = p ∧ (p &&& 128) >>> 7 = 0 ∧
      ((p ||| 128) &&& 128) >>> 7 = 1 ∧ p ||| 128 = 128 + p ∧
      p &&& 128 = 0 ∧ (p ||| 128) &&& 128 = 128 := by
  interval_cases p <;> decide

/-- Normal form of a successful `encode`: on a request whose fields all fit
their widths, `encode` returns the `wireFrame` with the header octets the
source computes. -/
theorem encode_ok (ssrc : Nat) (pt : Int) (payload : List Nat) (seq ts version : Nat)
    (csrcs padding : List Nat) (marker : Bool)
    (hpt : pt ≤ 127) (hv : version = 1 ∨ version = 2) (hseq : seq ≤ 65535)
    (hts : ts ≤ 4294967295) (hssrc : ssrc ≤ 4294967295) (hclen : csrcs.length ≤ 15)
    (hc : ∀ c ∈ csrcs, c ≤ 4294967295) (hpl : ∀ b ∈ payload, b ≤ 255)
    (hpdlen : padding.length ≤ 255) (hpd : ∀ b ∈ padding, b ≤ 255) :
    encode ssrc pt payload seq ts version csrcs padding marker =
      .ok (wireFrame
        ((if padding ≠ [] then (version <<< 6) ||| 32 else version <<< 6) + csrcs.length)
        (if marker then Int.lor (Int.land pt 127) 128 else Int.land pt 127).toNat
        seq ts ssrc csrcs payload padding) := by
  have h0 : ¬ ((0x7f : Int) < pt) := not_lt.mpr hpt
  have h1 : ¬ ¬ (version = 1 ∨ version = 2) := not_not_intro hv
  have h2 : ¬ (15 < csrcs.length) := not_lt.mpr hclen
  have h3 : ¬ (0xffff < seq ∨ 0xffffffff < ts ∨ 0xffffffff < ssrc) := by omega
  have h4 : payload.any (fun b => decide (255 < b)) = false := by
    rw [List.any_eq_false]
    intro x hx
    simpa using hpl x hx
  have h6 : padding.any (fun b => decide (255 < b)) = false := by
    rw [List.any_eq_false]
    intro x hx
    simpa using hpd x hx
  have h5 : ¬ (0xff < padding.length) := not_lt.mpr hpdlen
  by_cases hpad : padding = []
  · subst hpad
    simp only [encode, if_neg h0, if_neg h1, if_neg h2, if_neg h3,
      packCsrcs_ok csrcs hc, h4, Bool.false_eq_true, if_false, if_neg h5,
      ne_eq, not_true_eq_false, reduceIte]
    simp [wireFrame, padTail, List.append_assoc]
  · simp only [encode, if_neg h0, if_neg h1, if_neg h2, if_neg h3,
      packCsrcs_ok csrcs hc, h4, h6, Bool.false_eq_true, if_false, if_neg h5,
      ne_eq, hpad, not_false_eq_true, reduceIte]
    simp [wireFrame, padTail, hpad, List.append_assoc]

/-- Dropping `n + 12` elements skips the twelve header octets and `n` more. -/
theorem drop_cons12 (n : Nat) (b0 b1 b2 b3 b4 b5 b6 b7 b8 b9 b10 b11 : Nat)
    (rest : List Nat) :
    (b0 :: b1 :: b2 :: b3 :: b4 :: b5 :: b6 :: b7 :: b8 :: b9 :: b10 :: b11 ::
      rest).drop (n + 12) = rest.drop n := rfl

/-- Decoding any buffer of the `wireFrame` shape recovers the header fields
from its octets, the csrc words in order, and splits payload from padding
according to the padding flag of the first octet. -/
theorem decode_wire (h1 h2 seq ts ssrc : Nat) (csrcs payload padding : List Nat)
    (hseq : seq ≤ 65535) (hts : ts ≤ 4294967295) (hssrc : ssrc ≤ 4294967295)
    (hc : ∀ c ∈ csrcs, c ≤ 4294967295)
    (hcc : h1 &&& 15 = csrcs.length)
    (hext : h1 &&& 16 = 0)
    (hpadflag : h1 &&& 32 = if padding = [] then 0 else 32) :
    decode (wireFrame h1 h2 seq ts ssrc csrcs payload padding) =
      .ok [FieldValue.list payload, .nat (h2 &&& 127), .nat ssrc, .list csrcs,
           .nat ts, .nat seq, .nat ((h1 &&& 192) >>> 6), .nat ((h2 &&& 128) >>> 7),
           if padding = [] then FieldValue.none else FieldValue.list padding] := by
  have e1 : seq / 256 % 256 * 256 + seq % 256 = seq := by omega
  have e2 : ts / 16777216 % 256 * 16777216 + ts / 65536 % 256 * 65536 +
      ts / 256 % 256 * 256 + ts % 256 = ts := by omega
  have e3 : ssrc / 16777216 % 256 * 16777216 + ssrc / 65536 % 256 * 65536 +
      ssrc / 256 % 256 * 256 + ssrc % 256 = ssrc := by omega
  simp only [wireFrame, pack16, pack32, List.cons_append, List.nil_append]
  simp only [decode, hcc, hext, e1, e2, e3]
  simp only [ne_eq, not_true_eq_false, OfNat.zero_ne_ofNat, not_false_eq_true,
    reduceIte, if_false]
  rw [parse_flat csrcs _ hc]
  rw [drop_cons12]
  rw [List.drop_left' (flat32_length csrcs)]
  rw [hpadflag]
  by_cases hpad : padding = []
  · subst hpad
    simp only [padTail, reduceIte, List.append_nil, ne_eq, not_true_eq_false,
      if_false]
    simp only [Rtp.value, List.replicate, List.set]
  · simp only [padTail, hpad, reduceIte, ne_eq, not_false_eq_true, if_true]
    have hlast : (payload ++ (padding ++ [padding.length])).getLast? =
        some padding.length := by
      rw [← List.append_assoc]
      exact List.getLast?_concat _
    rw [hlast]
    have hL1 : (payload ++ (padding ++ [padding.length])).length -
        (padding.length + 1) = payload.length := by
      simp [List.length_append]
    have hL2 : (payload ++ (padding ++ [padding.length])).length - 1 =
        (payload ++ padding).length := by
      simp [List.length_append]
    have htake2 : (payload ++ (padding ++ [padding.length])).take
        ((payload ++ (padding ++ [padding.length])).length - (padding.length + 1)) =
        payload := by
      rw [hL1]
      exact List.take_left' rfl
    have htake1 : (payload ++ (padding ++ [padding.length])).take
        ((payload ++ (padding ++ [padding.length])).length - 1) =
        payload ++ padding := by
      rw [hL2, ← List.append_assoc]
      exact List.take_left' rfl
    have hdrop : (payload ++ padding).drop
        ((payload ++ (padding ++ [padding.length])).length - (padding.length + 1)) =
        padding := by
      rw [hL1]
      exact List.drop_left' rfl
    rw [htake1]
    simp [htake2, hdrop, Rtp.value, List.replicate, List.set, hpad]

/-- `Except.bind` on a success just applies the continuation. -/
theorem except_bind_ok {α β : Type} (a : α) (f : α → Except PyError β) :
    (Except.ok a : Except PyError α).bind f = f a := rfl

/-- The second header octet emitted for a 7-bit payload type decodes back to
the payload type and the marker bit. -/
theorem h2n_facts (p : Nat) (hp : p ≤ 127) (marker : Bool) :
    (if marker then p ||| 128 else p) &&& 127 = p ∧
      (((if marker then p ||| 128 else p) &&& 128) >>> 7) =
        (if marker then 1 else 0) := by
  cases marker
  · exact ⟨(byte_facts p hp).1, (byte_facts p hp).2.2.1⟩
  · exact ⟨(byte_facts p hp).2.1, (byte_facts p hp).2.2.2.1⟩

/-- Round trip: decoding the buffer `encode` produces on a valid request
recovers every field. -/
theorem encode_then_decode (ssrc p seq ts version : Nat)
    (payload csrcs padding : List Nat) (marker : Bool)
    (hp : p ≤ 127) (hv : version = 1 ∨ version = 2) (hseq : seq ≤ 65535)
    (hts : ts ≤ 4294967295) (hssrc : ssrc ≤ 4294967295) (hclen : csrcs.length ≤ 15)
    (hc : ∀ c ∈ csrcs, c ≤ 4294967295) (hpl : ∀ b ∈ payload, b ≤ 255)
    (hpdlen : padding.length ≤ 255) (hpd : ∀ b ∈ padding, b ≤ 255) :
    (encode ssrc (p : Int) payload seq ts version csrcs padding marker).bind decode =
      .ok [FieldValue.list payload, .nat p, .nat ssrc, .list csrcs, .nat ts,
           .nat seq, .nat version, .nat (if marker then 1 else 0),
           if padding = [] then FieldValue.none else FieldValue.list padding] := by
  have hpt : (p : Int) ≤ 127 := by exact_mod_cast hp
  rw [encode_ok ssrc _ payload seq ts version csrcs padding marker hpt hv hseq hts
    hssrc hclen hc hpl hpdlen hpd]
  rw [except_bind_ok]
  have hh2 : (if marker then Int.lor (Int.land (p : Int) 127) 128
      else Int.land (p : Int) 127).toNat = if marker then p ||| 128 else p := by
    cases marker
    · show (Int.land (Int.ofNat p) 127).toNat = p
      rw [show (Int.land (Int.ofNat p) 127).toNat = p &&& 127 from rfl]
      exact (byte_facts p hp).1
    · show (Int.lor (Int.land (Int.ofNat p) 127) 128).toNat = p ||| 128
      rw [show (Int.lor (Int.land (Int.ofNat p) 127) 128).toNat =
        (p &&& 127) ||| 128 from rfl]
      rw [(byte_facts p hp).1]
  rw [hh2]
  have hf := h1_facts csrcs.length hclen
  have hm := h2n_facts p hp marker
  rcases hv with rfl | rfl <;> by_cases hpad : padding = []
  · subst hpad
    simp only [ne_eq, not_true_eq_false, if_false]
    rw [show (1 : Nat) <<< 6 = 64 from rfl]
    rw [decode_wire (64 + csrcs.length) (if marker then p ||| 128 else p) seq ts
      ssrc csrcs payload [] hseq hts hssrc hc hf.1.1 hf.1.2.1 (by simp [hf.1.2.2.1])]
    rw [hm.1, hm.2, hf.1.2.2.2]
    simp
  · simp only [ne_eq, hpad, not_false_eq_true, if_true]
    rw [show ((1 : Nat) <<< 6) ||| 32 = 96 from rfl]
    rw [decode_wire (96 + csrcs.length) (if marker then p ||| 128 else p) seq ts
      ssrc csrcs payload padding hseq hts hssrc hc hf.2.1.1 hf.2.1.2.1
      (by simp [hpad, hf.2.1.2.2.1])]
    rw [hm.1, hm.2, hf.2.1.2.2.2]
    simp [hpad]
  · subst hpad
    simp only [ne_eq, not_true_eq_false, if_false]
    rw [show (2 : Nat) <<< 6 = 128 from rfl]
    rw [decode_wire (128 + csrcs.length) (if marker then p ||| 128 else p) seq ts
      ssrc csrcs payload [] hseq hts hssrc hc hf.2.2.1.1 hf.2.2.1.2.1
      (by simp [hf.2.2.1.2.2.1])]
    rw [hm.1, hm.2, hf.2.2.1.2.2.2]
    simp
  · simp only [ne_eq, hpad, not_false_eq_true, if_true]
    rw [show ((2 : Nat) <<< 6) ||| 32 = 160 from rfl]
    rw [decode_wire (160 + csrcs.length) (if marker then p ||| 128 else p) seq ts
      ssrc csrcs payload padding hseq hts hssrc hc hf.2.2.2.1 hf.2.2.2.2.1
      (by simp [hpad, hf.2.2.2.2.2.1])]
    rw [hm.1, hm.2, hf.2.2.2.2.2.2]
    simp [hpad]

/-- Python's `x & 0x7f` is never negative, whatever the sign of `x`. -/
theorem land127_nonneg (pt : Int) : 0 ≤ Int.land pt 127 := by
  cases pt with
  | ofNat n => exact Int.ofNat_nonneg _
  | negSucc m => exact Int.ofNat_nonneg _

/-- The csrc parser succeeds whenever the buffer holds enough bytes. -/
theorem parse_ok_of_le (n : Nat) (bs : List Nat) (h : n * 4 ≤ bs.length) :
    ∃ cs, parse_32bit_nums_big_endian n bs = .ok cs := by
  induction n generalizing bs with
  | zero => exact ⟨[], rfl⟩
  | succ n ih =>
    rcases bs with _ | ⟨a, bs⟩
    · simp only [List.length_nil] at h
      omega
    rcases bs with _ | ⟨b, bs⟩
    · simp only [List.length_cons, List.length_nil] at h
      omega
    rcases bs with _ | ⟨c, bs⟩
    · simp only [List.length_cons, List.length_nil] at h
      omega
    rcases bs with _ | ⟨d, bs⟩
    · simp only [List.length_cons, List.length_nil] at h
      omega
    obtain ⟨cs, hcs⟩ := ih bs (by simp only [List.length_cons] at h; omega)
    refine ⟨(a * 16777216 + b * 65536 + c * 256 + d) :: cs, ?_⟩
    simp [parse_32bit_nums_big_endian, unpack32, hcs]

/-- When no width bound other than possibly a padding byte is violated,
`encode` either succeeds or raises the `bytes()` conversion error — never a
RangeError. -/
theorem encode_ok_or_bytes (ssrc : Nat) (pt : Int) (payload : List Nat)
    (seq ts version : Nat) (csrcs padding : List Nat) (marker : Bool)
    (hpt : pt ≤ 127) (hv : version = 1 ∨ version = 2) (hclen : csrcs.length ≤ 15)
    (hseq : seq ≤ 65535) (hts : ts ≤ 4294967295) (hssrc : ssrc ≤ 4294967295)
    (hc : ∀ c ∈ csrcs, c ≤ 4294967295) (hpl : ∀ b ∈ payload, b ≤ 255)
    (hpdlen : padding.length ≤ 255) :
    (∃ bs, encode ssrc pt payload seq ts version csrcs padding marker = .ok bs) ∨
      encode ssrc pt payload seq ts version csrcs padding marker =
        .error .bytesValueError := by
  have h0 : ¬ ((0x7f : Int) < pt) := not_lt.mpr hpt
  have h1 : ¬ ¬ (version = 1 ∨ version = 2) := not_not_intro hv
  have h2 : ¬ (15 < csrcs.length) := not_lt.mpr hclen
  have h3 : ¬ (0xffff < seq ∨ 0xffffffff < ts ∨ 0xffffffff < ssrc) := by omega
  have h4 : payload.any (fun b => decide (255 < b)) = false := by
    rw [List.any_eq_false]
    intro x hx
    simpa using hpl x hx
  have h5 : ¬ (0xff < padding.length) := not_lt.mpr hpdlen
  by_cases hpad : padding = []
  · subst hpad
    exact Or.inl ⟨_, encode_ok ssrc pt payload seq ts version csrcs [] marker
      hpt hv hseq hts hssrc hclen hc hpl (by simp) (by simp)⟩
  · by_cases h6 : padding.any (fun b => decide (255 < b)) = true
    · refine Or.inr ?_
      simp only [encode, if_neg h0, if_neg h1, if_neg h2, if_neg h3,
        packCsrcs_ok csrcs hc, h4, h6, Bool.false_eq_true, if_false, if_neg h5,
        ne_eq, hpad, not_false_eq_true, reduceIte]
    · have hpd : ∀ b ∈ padding, b ≤ 255 := by
        have h7 := eq_false_of_ne_true h6
        rw [List.any_eq_false] at h7
        intro x hx
        have h8 := h7 x hx
        simpa using h8
      exact Or.inl ⟨_, encode_ok ssrc pt payload seq ts version csrcs padding
        marker hpt hv hseq hts hssrc hclen hc hpl hpdlen hpd⟩

/-- C4: `encode(ssrc=12, payloadType=1, payload=[1,2,3,4], seq=0,
timestamp=1234)` with the defaulted options (version 2, no csrcs, no padding,
marker off) returns exactly the sixteen bytes
`80 01 00 00 00 00 04 D2 00 00 00 0C 01 02 03 04`. -/
theorem encode_fixed_vector :
    encode 12 1 [1, 2, 3, 4] 0 1234 2 [] [] false =
      .ok [0x80, 0x01, 0x00, 0x00, 0x00, 0x00, 0x04, 0xd2, 0x00, 0x00, 0x00, 0x0c,
           0x01, 0x02, 0x03, 0x04] := rfl

/-- C5: decoding the sixteen-byte sequence
`80 01 00 00 00 00 04 D2 00 00 00 0C 01 02 03 04` and querying the accessor
with `Version` then `Payload` in one call yields the ordered pair
`[2, [1,2,3,4]]`. -/
theorem decode_fixed_vector_query :
    (decode [0x80, 0x01, 0x00, 0x00, 0x00, 0x00, 0x04, 0xd2, 0x00, 0x00, 0x00,
        0x0c, 0x01, 0x02, 0x03, 0x04]).map
      (fun data => get_fields data Rtp.Version [Rtp.Payload]) =
      .ok (.multi [.nat 2, .list [1, 2, 3, 4]]) := rfl

/-- C1: for every valid encode request — payload type at most `0x7f`,
version 1 or 2, sequence number within 16 bits, timestamp and ssrc within
32 bits, at most fifteen csrcs each within 32 bits, byte-valued payload,
padding of at most `0xff` bytes — decoding the buffer `encode` produces
recovers every header field with the original value: Payload, PayloadType,
Ssrc, the Csrcs sequence in the original order, Timestamp, SequenceNumber,
Version, Marker (as the int `1`/`0`, which Python's `==` identifies with
`True`/`False`), and Padding as the original padding byte sequence, absent
(`None`) when the padding was empty. -/
theorem round_trip_decodes_encode (ssrc p seq ts version : Nat)
    (payload csrcs padding : List Nat) (marker : Bool)
    (hp : p ≤ 127) (hv : version = 1 ∨ version = 2) (hseq : seq ≤ 65535)
    (hts : ts ≤ 4294967295) (hssrc : ssrc ≤ 4294967295) (hclen : csrcs.length ≤ 15)
    (hc : ∀ c ∈ csrcs, c ≤ 4294967295) (hpl : ∀ b ∈ payload, b ≤ 255)
    (hpdlen : padding.length ≤ 255) (hpd : ∀ b ∈ padding, b ≤ 255) :
    (encode ssrc (p : Int) payload seq ts version csrcs padding marker).bind decode =
      .ok [FieldValue.list payload, .nat p, .nat ssrc, .list csrcs, .nat ts,
           .nat seq, .nat version, .nat (if marker then 1 else 0),
           if padding = [] then FieldValue.none else FieldValue.list padding] :=
  encode_then_decode ssrc p seq ts version payload csrcs padding marker hp hv
    hseq hts hssrc hclen hc hpl hpdlen hpd

/-- Witness for C1 at a concrete request exercising version 1, two csrcs
(one at the 32-bit maximum), nonempty padding and the marker bit. -/
theorem round_trip_decodes_encode_witness :
    (encode 12 ((1 : Nat) : Int) [9, 8, 7] 7 1234 1 [3, 4294967295] [5, 6]
        true).bind decode =
      .ok [FieldValue.list [9, 8, 7], .nat 1, .nat 12, .list [3, 4294967295],
           .nat 1234, .nat 7, .nat 1, .nat 1, FieldValue.list [5, 6]] :=
  round_trip_decodes_encode 12 1 7 1234 1 [9, 8, 7] [3, 4294967295] [5, 6] true
    (by decide) (by decide) (by decide) (by decide) (by decide) (by decide)
    (by decide) (by decide) (by decide) (by decide)

/-- C2 (failing-input evaluation): the seventeen-byte buffer
`90 00 00 00 00 00 00 00 00 00 00 00 | 00 00 00 00 | AA` has the extension
bit set, zero csrcs, a four-byte extension block of declared length zero and
the single payload byte `AA`.  Skipping the extension block should leave the
payload `[0xAA]` (read from index 16).  With `index_after_extension_header`
modelled from the spec, `decode` instead assigns the helper's slice-relative
result (4) to its absolute read cursor (`src/rtp.py:154`), so the returned
Payload still contains timestamp, ssrc and extension bytes; in the actual
source the helper is not defined at all and this call raises `NameError`
before returning any accessor. -/
theorem decode_extension_bit_misaligned_payload :
    (decode [0x90, 0, 0, 0, 0, 0, 0, 0, 0, 0, 0, 0, 0, 0, 0, 0, 0xaa]).map
        (fun data => get_field data Rtp.Payload) =
      .ok (.list [0, 0, 0, 0, 0, 0, 0, 0, 0, 0, 0, 0, 0xaa]) ∧
    FieldValue.list [0, 0, 0, 0, 0, 0, 0, 0, 0, 0, 0, 0, 0xaa] ≠
      FieldValue.list [0xaa] :=
  ⟨rfl, by decide⟩

/-- C3 (counterexample to the claim as stated): at version 3 with the single
csrc `0x100000000`, a numeric field exceeds its bit-width budget
(`csrc > 0xffffffff`), yet `encode` fails with the version ValueError — the
version check at `src/rtp.py:195` runs before the csrc check at line 219 —
so it does not fail with a RangeError. -/
theorem encode_range_error_claim_counterexample :
    encode 0 0 [] 0 0 3 [4294967296] [] false = .error .versionInvalid ∧
      4294967295 < (4294967296 : Nat) ∧
      isRangeError .versionInvalid = false :=
  ⟨rfl, by decide, rfl⟩

/-- C3 (amended): for requests that are valid in every other respect
(version in {1,2}, at most fifteen csrcs, sequence number, timestamp and
ssrc within their widths, byte-valued payload), `encode` fails with a
RangeError — one of the raise sites the spec's taxonomy classifies so —
exactly when `payloadType > 0x7f`, some csrc exceeds `0xffffffff`, or the
padding is longer than `0xff` bytes; moreover `payloadType = 128` fails with
the payload-type RangeError and `payloadType = 127` succeeds. -/
theorem encode_range_error_characterization :
    (∀ (ssrc : Nat) (pt : Int) (payload : List Nat) (seq ts version : Nat)
        (csrcs padding : List Nat) (marker : Bool),
      version = 1 ∨ version = 2 → csrcs.length ≤ 15 → seq ≤ 65535 →
      ts ≤ 4294967295 → ssrc ≤ 4294967295 → (∀ b ∈ payload, b ≤ 255) →
      ((∃ e, encode ssrc pt payload seq ts version csrcs padding marker =
          .error e ∧ isRangeError e = true) ↔
        (127 < pt ∨ (∃ c ∈ csrcs, 4294967295 < c) ∨ 255 < padding.length))) ∧
    encode 0 128 [] 0 0 2 [] [] false = .error .payloadTypeOutOfRange ∧
    encode 0 127 [] 0 0 2 [] [] false =
      .ok [128, 127, 0, 0, 0, 0, 0, 0, 0, 0, 0, 0] := by
  refine ⟨?_, rfl, rfl⟩
  intro ssrc pt payload seq ts version csrcs padding marker hv hclen hseq hts
    hssrc hpl
  constructor
  · rintro ⟨e, he, hre⟩
    by_contra hdisj
    push_neg at hdisj
    obtain ⟨h127, hcs, hpdl⟩ := hdisj
    have hc : ∀ c ∈ csrcs, c ≤ 4294967295 := hcs
    rcases encode_ok_or_bytes ssrc pt payload seq ts version csrcs padding
        marker h127 hv hclen hseq hts hssrc hc hpl
        hpdl with ⟨bs, hok⟩ | hbytes
    · rw [hok] at he
      exact Except.noConfusion he
    · rw [hbytes] at he
      have hee : e = PyError.bytesValueError :=
        (Except.error.injEq _ _).mp he.symm
      rw [hee] at hre
      exact Bool.noConfusion hre
  · have h1 : ¬ ¬ (version = 1 ∨ version = 2) := not_not_intro hv
    have h2 : ¬ (15 < csrcs.length) := not_lt.mpr hclen
    have h3 : ¬ (0xffff < seq ∨ 0xffffffff < ts ∨ 0xffffffff < ssrc) := by omega
    have h4 : payload.any (fun b => decide (255 < b)) = false := by
      rw [List.any_eq_false]
      intro x hx
      simpa using hpl x hx
    rintro (hpt | hbig | hpdl)
    · refine ⟨.payloadTypeOutOfRange, ?_, rfl⟩
      simp only [encode, if_pos hpt]
    · by_cases hpt : (0x7f : Int) < pt
      · refine ⟨.payloadTypeOutOfRange, ?_, rfl⟩
        simp only [encode, if_pos hpt]
      · refine ⟨.csrcOutOfRange, ?_, rfl⟩
        simp only [encode, if_neg hpt, if_neg h1, if_neg h2, if_neg h3,
          packCsrcs_err csrcs hbig]
    · by_cases hpt : (0x7f : Int) < pt
      · refine ⟨.payloadTypeOutOfRange, ?_, rfl⟩
        simp only [encode, if_pos hpt]
      · by_cases hbig : ∃ c ∈ csrcs, 4294967295 < c
        · refine ⟨.csrcOutOfRange, ?_, rfl⟩
          simp only [encode, if_neg hpt, if_neg h1, if_neg h2, if_neg h3,
            packCsrcs_err csrcs hbig]
        · have hc : ∀ c ∈ csrcs, c ≤ 4294967295 := by
            push_neg at hbig
            exact hbig
          refine ⟨.paddingTooLong, ?_, rfl⟩
          simp only [encode, if_neg hpt, if_neg h1, if_neg h2, if_neg h3,
            packCsrcs_ok csrcs hc, h4, Bool.false_eq_true, if_false,
            if_pos hpdl]

/-- Witness for C3's universally quantified part: at payload type 0,
version 2, the single out-of-range csrc `0x100000000` and empty padding, the
characterization instantiates to a true iff whose right side holds. -/
theorem encode_range_error_characterization_witness :
    (∃ e, encode 0 0 [] 0 0 2 [4294967296] [] false = .error e ∧
        isRangeError e = true) ↔
      (127 < (0 : Int) ∨ (∃ c ∈ [4294967296], 4294967295 < c) ∨
        255 < ([] : List Nat).length) :=
  encode_range_error_characterization.1 0 0 [] 0 0 2 [4294967296] [] false
    (by decide) (by decide) (by decide) (by decide) (by decide) (by decide)

/-- The first octet of a `wireFrame` is its `h1` argument. -/
theorem wireFrame_getD0 (a b s t r : Nat) (cs pl pd : List Nat) :
    (wireFrame a b s t r cs pl pd).getD 0 0 = a := rfl

/-- The second octet of a `wireFrame` is its `h2` argument. -/
theorem wireFrame_getD1 (a b s t r : Nat) (cs pl pd : List Nat) :
    (wireFrame a b s t r cs pl pd).getD 1 0 = b := rfl

/-- C6: encoding with `padding = [1,2,3]` (any otherwise-valid request)
produces a buffer whose first header octet has bit `0x20` set and which ends
with the bytes `01 02 03 03` immediately after the payload; decoding that
buffer recovers Padding `[1,2,3]` and a Payload equal to the pre-padding
payload. -/
theorem padding_encode_decode (ssrc p seq ts version : Nat)
    (payload csrcs : List Nat) (marker : Bool)
    (hp : p ≤ 127) (hv : version = 1 ∨ version = 2) (hseq : seq ≤ 65535)
    (hts : ts ≤ 4294967295) (hssrc : ssrc ≤ 4294967295) (hclen : csrcs.length ≤ 15)
    (hc : ∀ c ∈ csrcs, c ≤ 4294967295) (hpl : ∀ b ∈ payload, b ≤ 255) :
    ∃ buf, encode ssrc (p : Int) payload seq ts version csrcs [1, 2, 3] marker =
        .ok buf ∧
      buf.getD 0 0 &&& 32 ≠ 0 ∧
      (∃ pre, buf = pre ++ (payload ++ [1, 2, 3, 3])) ∧
      (decode buf).map (fun data => get_field data Rtp.Padding) =
        .ok (.list [1, 2, 3]) ∧
      (decode buf).map (fun data => get_field data Rtp.Payload) =
        .ok (.list payload) := by
  have hpt : (p : Int) ≤ 127 := by exact_mod_cast hp
  have henc := encode_ok ssrc (p : Int) payload seq ts version csrcs [1, 2, 3]
    marker hpt hv hseq hts hssrc hclen hc hpl (by decide) (by decide)
  have hdec := encode_then_decode ssrc p seq ts version payload csrcs [1, 2, 3]
    marker hp hv hseq hts hssrc hclen hc hpl (by decide) (by decide)
  rw [henc, except_bind_ok] at hdec
  refine ⟨_, henc, ?_, ?_, ?_, ?_⟩
  · rw [wireFrame_getD0]
    rw [if_pos (show ([1, 2, 3] : List Nat) ≠ [] by simp)]
    have hf := h1_facts csrcs.length hclen
    rcases hv with rfl | rfl
    · rw [show ((1 : Nat) <<< 6) ||| 32 = 96 from rfl, hf.2.1.2.2.1]
      decide
    · rw [show ((2 : Nat) <<< 6) ||| 32 = 160 from rfl, hf.2.2.2.2.2.1]
      decide
  · refine ⟨((if ([1, 2, 3] : List Nat) ≠ [] then (version <<< 6) ||| 32
        else version <<< 6) + csrcs.length) ::
      (if marker then Int.lor (Int.land (p : Int) 127) 128
        else Int.land (p : Int) 127).toNat ::
      (pack16 seq ++ pack32 ts ++ pack32 ssrc ++ flat32 csrcs), ?_⟩
    simp [wireFrame, padTail, List.append_assoc]
  · rw [hdec]
    rfl
  · rw [hdec]
    rfl

/-- Witness for C6 at a concrete request. -/
theorem padding_encode_decode_witness :
    ∃ buf, encode 5 ((7 : Nat) : Int) [9, 9] 1 2 2 [4] [1, 2, 3] false =
        .ok buf ∧
      buf.getD 0 0 &&& 32 ≠ 0 ∧
      (∃ pre, buf = pre ++ ([9, 9] ++ [1, 2, 3, 3])) ∧
      (decode buf).map (fun data => get_field data Rtp.Padding) =
        .ok (.list [1, 2, 3]) ∧
      (decode buf).map (fun data => get_field data Rtp.Payload) =
        .ok (.list [9, 9]) :=
  padding_encode_decode 5 7 1 2 2 [9, 9] [4] false (by decide) (by decide)
    (by decide) (by decide) (by decide) (by decide) (by decide) (by decide)

/-- C7: encoding with `marker = true` sets bit `0x80` of the second header
octet and the decoded Marker field is `1`; with the defaulted
`marker = false` the bit is clear and the decoded Marker field is `0`.  The
decoder stores the Python int `(h2 & 0x80) >> 7`, exactly the boolean value
of `(h2 & 0x80) != 0` under Python's `==` (which identifies `True` with `1`
and `False` with `0`). -/
theorem marker_bit_encode_decode (ssrc p seq ts version : Nat)
    (payload csrcs padding : List Nat)
    (hp : p ≤ 127) (hv : version = 1 ∨ version = 2) (hseq : seq ≤ 65535)
    (hts : ts ≤ 4294967295) (hssrc : ssrc ≤ 4294967295) (hclen : csrcs.length ≤ 15)
    (hc : ∀ c ∈ csrcs, c ≤ 4294967295) (hpl : ∀ b ∈ payload, b ≤ 255)
    (hpdlen : padding.length ≤ 255) (hpd : ∀ b ∈ padding, b ≤ 255) :
    (∃ bufT, encode ssrc (p : Int) payload seq ts version csrcs padding true =
        .ok bufT ∧
      bufT.getD 1 0 &&& 128 = 128 ∧
      (decode bufT).map (fun data => get_field data Rtp.Marker) = .ok (.nat 1)) ∧
    (∃ bufF, encode ssrc (p : Int) payload seq ts version csrcs padding false =
        .ok bufF ∧
      bufF.getD 1 0 &&& 128 = 0 ∧
      (decode bufF).map (fun data => get_field data Rtp.Marker) = .ok (.nat 0)) := by
  have hpt : (p : Int) ≤ 127 := by exact_mod_cast hp
  constructor
  · have henc := encode_ok ssrc (p : Int) payload seq ts version csrcs padding
      true hpt hv hseq hts hssrc hclen hc hpl hpdlen hpd
    have hdec := encode_then_decode ssrc p seq ts version payload csrcs padding
      true hp hv hseq hts hssrc hclen hc hpl hpdlen hpd
    rw [henc, except_bind_ok] at hdec
    refine ⟨_, henc, ?_, ?_⟩
    · rw [wireFrame_getD1]
      show ((p &&& 127) ||| 128) &&& 128 = 128
      rw [(byte_facts p hp).1]
      exact (byte_facts p hp).2.2.2.2.2.2
    · rw [hdec]
      rfl
  · have henc := encode_ok ssrc (p : Int) payload seq ts version csrcs padding
      false hpt hv hseq hts hssrc hclen hc hpl hpdlen hpd
    have hdec := encode_then_decode ssrc p seq ts version payload csrcs padding
      false hp hv hseq hts hssrc hclen hc hpl hpdlen hpd
    rw [henc, except_bind_ok] at hdec
    refine ⟨_, henc, ?_, ?_⟩
    · rw [wireFrame_getD1]
      show (p &&& 127) &&& 128 = 0
      rw [(byte_facts p hp).1]
      exact (byte_facts p hp).2.2.2.2.2.1
    · rw [hdec]
      rfl

/-- Witness for C7 at a concrete request. -/
theorem marker_bit_encode_decode_witness :
    (∃ bufT, encode 3 ((96 : Nat) : Int) [1] 4 5 2 [] [] true = .ok bufT ∧
      bufT.getD 1 0 &&& 128 = 128 ∧
      (decode bufT).map (fun data => get_field data Rtp.Marker) = .ok (.nat 1)) ∧
    (∃ bufF, encode 3 ((96 : Nat) : Int) [1] 4 5 2 [] [] false = .ok bufF ∧
      bufF.getD 1 0 &&& 128 = 0 ∧
      (decode bufF).map (fun data => get_field data Rtp.Marker) = .ok (.nat 0)) :=
  marker_bit_encode_decode 3 96 4 5 2 [1] [] [] (by decide) (by decide)
    (by decide) (by decide) (by decide) (by decide) (by decide) (by decide)
    (by decide) (by decide)

/-- C8: with an otherwise-valid request (payload type at most `0x7f`,
version 1 or 2), `encode` with sixteen csrcs fails with the ValueError
carrying the actual count supplied (the source's message interpolates
`len(csrcs)`), while `encode` with fifteen csrcs that fit 32 bits succeeds
and decoding recovers all fifteen in the original order. -/
theorem csrc_count_boundary :
    (∀ (ssrc : Nat) (pt : Int) (payload : List Nat) (seq ts version : Nat)
        (csrcs padding : List Nat) (marker : Bool),
      pt ≤ 127 → (version = 1 ∨ version = 2) → csrcs.length = 16 →
      encode ssrc pt payload seq ts version csrcs padding marker =
        .error (.tooManyCsrcs 16)) ∧
    (∀ (ssrc p seq ts version : Nat) (payload csrcs padding : List Nat)
        (marker : Bool),
      p ≤ 127 → (version = 1 ∨ version = 2) → seq ≤ 65535 → ts ≤ 4294967295 →
      ssrc ≤ 4294967295 → csrcs.length = 15 → (∀ c ∈ csrcs, c ≤ 4294967295) →
      (∀ b ∈ payload, b ≤ 255) → padding.length ≤ 255 →
      (∀ b ∈ padding, b ≤ 255) →
      ((encode ssrc (p : Int) payload seq ts version csrcs padding marker).bind
          decode).map (fun data => get_field data Rtp.Csrcs) =
        .ok (.list csrcs)) := by
  constructor
  · intro ssrc pt payload seq ts version csrcs padding marker hpt hv hlen
    have h0 : ¬ ((0x7f : Int) < pt) := not_lt.mpr hpt
    have h1 : ¬ ¬ (version = 1 ∨ version = 2) := not_not_intro hv
    have h2 : 15 < csrcs.length := by omega
    simp only [encode, if_neg h0, if_neg h1, if_pos h2, hlen]
    rfl
  · intro ssrc p seq ts version payload csrcs padding marker hp hv hseq hts
      hssrc hlen hc hpl hpdlen hpd
    rw [encode_then_decode ssrc p seq ts version payload csrcs padding marker
      hp hv hseq hts hssrc (by omega) hc hpl hpdlen hpd]
    rfl

/-- Witness for C8: sixteen csrcs are rejected with the count in the error;
fifteen csrcs (the largest at the 32-bit maximum) round-trip in order. -/
theorem csrc_count_boundary_witness :
    encode 0 0 [] 0 0 2 [1, 2, 3, 4, 5, 6, 7, 8, 9, 10, 11, 12, 13, 14, 15, 16]
        [] false = .error (.tooManyCsrcs 16) ∧
    ((encode 9 ((1 : Nat) : Int) [7] 2 3 2
        [1, 2, 3, 4, 5, 6, 7, 8, 9, 10, 11, 12, 13, 14, 4294967295] [] false).bind
        decode).map (fun data => get_field data Rtp.Csrcs) =
      .ok (.list [1, 2, 3, 4, 5, 6, 7, 8, 9, 10, 11, 12, 13, 14, 4294967295]) :=
  ⟨csrc_count_boundary.1 0 0 [] 0 0 2
      [1, 2, 3, 4, 5, 6, 7, 8, 9, 10, 11, 12, 13, 14, 15, 16] [] false
      (by decide) (by decide) (by decide),
    csrc_count_boundary.2 9 1 2 3 2 [7]
      [1, 2, 3, 4, 5, 6, 7, 8, 9, 10, 11, 12, 13, 14, 4294967295] [] false
      (by decide) (by decide) (by decide) (by decide) (by decide) (by decide)
      (by decide) (by decide) (by decide) (by decide)⟩

/-- C9: the payload-type validation rejects exactly the inputs with
`payload_type > 0x7f` — the guard at `src/rtp.py:186` is one-sided — so any
`payload_type > 0x7f` fails with the payload-type RangeError, while every
negative `payload_type` passes validation: with the other fields valid,
`encode` raises no error, and the second header octet (whose low seven bits
are the payload-type bits; the marker is defaulted off) equals
`payload_type & 0x7f`, a nonnegative value necessarily different from the
negative one supplied. -/
theorem payload_type_validation_negative :
    (∀ (ssrc : Nat) (pt : Int) (payload : List Nat) (seq ts version : Nat)
        (csrcs padding : List Nat) (marker : Bool), 127 < pt →
      encode ssrc pt payload seq ts version csrcs padding marker =
        .error .payloadTypeOutOfRange) ∧
    (∀ (ssrc : Nat) (pt : Int) (payload : List Nat) (seq ts version : Nat)
        (csrcs padding : List Nat),
      pt < 0 → (version = 1 ∨ version = 2) → seq ≤ 65535 → ts ≤ 4294967295 →
      ssrc ≤ 4294967295 → csrcs.length ≤ 15 → (∀ c ∈ csrcs, c ≤ 4294967295) →
      (∀ b ∈ payload, b ≤ 255) → padding.length ≤ 255 →
      (∀ b ∈ padding, b ≤ 255) →
      ∃ buf, encode ssrc pt payload seq ts version csrcs padding false =
          .ok buf ∧
        ((buf.getD 1 0 : Nat) : Int) = Int.land pt 127 ∧
        Int.land pt 127 ≠ pt) := by
  constructor
  · intro ssrc pt payload seq ts version csrcs padding marker hpt
    simp only [encode, if_pos hpt]
  · intro ssrc pt payload seq ts version csrcs padding hneg hv hseq hts hssrc
      hclen hc hpl hpdlen hpd
    have hpt : pt ≤ 127 := by omega
    have henc := encode_ok ssrc pt payload seq ts version csrcs padding false
      hpt hv hseq hts hssrc hclen hc hpl hpdlen hpd
    refine ⟨_, henc, ?_, ?_⟩
    · rw [wireFrame_getD1]
      show (((Int.land pt 127).toNat : Nat) : Int) = Int.land pt 127
      exact Int.toNat_of_nonneg (land127_nonneg pt)
    · have hnn := land127_nonneg pt
      omega

/-- Witness for C9 at `payload_type = 128` (rejected) and
`payload_type = -1` (accepted, masked to `0x7f`). -/
theorem payload_type_validation_negative_witness :
    encode 0 128 [] 0 0 2 [] [] false = .error .payloadTypeOutOfRange ∧
    ∃ buf, encode 0 (-1) [] 0 0 2 [] [] false = .ok buf ∧
      ((buf.getD 1 0 : Nat) : Int) = Int.land (-1) 127 ∧
      Int.land (-1) 127 ≠ -1 :=
  ⟨payload_type_validation_negative.1 0 128 [] 0 0 2 [] [] false (by decide),
    payload_type_validation_negative.2 0 (-1) [] 0 0 2 [] [] (by decide)
      (by decide) (by decide) (by decide) (by decide) (by decide) (by decide)
      (by decide) (by decide) (by decide)⟩

/-- C10 (counterexample to the claim as stated): the twelve-byte buffer
`A0 00 00 00 00 00 00 00 00 00 00 00` has the padding flag set
(`0xA0 & 0x20 ≠ 0`) and final byte 0, yet the tentative payload is empty, so
`payload[-1]` (`src/rtp.py:159`) raises IndexError: decode returns no
accessor at all instead of Padding = empty. -/
theorem padding_flag_short_buffer_counterexample :
    decode [0xa0, 0, 0, 0, 0, 0, 0, 0, 0, 0, 0, 0] = .error .indexError ∧
      (0xa0 : Nat) &&& 32 ≠ 0 ∧
      (decode [0xa0, 0, 0, 0, 0, 0, 0, 0, 0, 0, 0, 0]).map
          (fun data => get_field data Rtp.Padding) ≠ .ok (.list []) := by
  refine ⟨rfl, by decide, fun h => ?_⟩
  rw [show (decode [0xa0, 0, 0, 0, 0, 0, 0, 0, 0, 0, 0, 0]).map
      (fun data => get_field data Rtp.Padding) =
      (.error .indexError : Except PyError FieldValue) from rfl] at h
  exact Except.noConfusion h

/-- C10 (amended): for every buffer of at least twelve bytes whose padding
flag (`h1 & 0x20`) is set, whose extension bit is clear, whose length
exceeds `12 + 4·csrcCount` (so the tentative payload is nonempty), and whose
final byte is 0, decode returns Padding equal to the empty byte sequence —
distinct from the absent (`None`) value returned when the flag is unset —
and a Payload with exactly the one trailing length byte removed. -/
theorem padding_empty_flagged_decode
    (b0 b1 b2 b3 b4 b5 b6 b7 b8 b9 b10 b11 : Nat) (rest : List Nat)
    (hflag : b0 &&& 32 ≠ 0) (hext : b0 &&& 16 = 0)
    (hlen : (b0 &&& 15) * 4 < rest.length)
    (hlast : (rest.drop ((b0 &&& 15) * 4)).getLast? = some 0) :
    ∃ data, decode (b0 :: b1 :: b2 :: b3 :: b4 :: b5 :: b6 :: b7 :: b8 :: b9 ::
        b10 :: b11 :: rest) = .ok data ∧
      get_field data Rtp.Padding = .list [] ∧
      FieldValue.list [] ≠ FieldValue.none ∧
      get_field data Rtp.Payload =
        .list ((rest.drop ((b0 &&& 15) * 4)).dropLast) := by
  obtain ⟨cs, hcs⟩ := parse_ok_of_le (b0 &&& 15) rest (le_of_lt hlen)
  have hPlen : 1 ≤ (rest.drop ((b0 &&& 15) * 4)).length := by
    rw [List.length_drop]
    omega
  have hslice : ((rest.drop ((b0 &&& 15) * 4)).dropLast).drop
      ((rest.drop ((b0 &&& 15) * 4)).length - (0 + 1)) = [] := by
    apply List.drop_eq_nil_of_le
    rw [List.length_dropLast]
  have hp2 : (rest.drop ((b0 &&& 15) * 4)).take
      ((rest.drop ((b0 &&& 15) * 4)).length - (0 + 1)) =
      (rest.drop ((b0 &&& 15) * 4)).dropLast := by
    rw [List.dropLast_eq_take]
  have hdec : decode (b0 :: b1 :: b2 :: b3 :: b4 :: b5 :: b6 :: b7 :: b8 :: b9 ::
      b10 :: b11 :: rest) = .ok
      [.list ((rest.drop ((b0 &&& 15) * 4)).dropLast), .nat (b1 &&& 127),
       .nat (b8 * 16777216 + b9 * 65536 + b10 * 256 + b11), .list cs,
       .nat (b4 * 16777216 + b5 * 65536 + b6 * 256 + b7), .nat (b2 * 256 + b3),
       .nat ((b0 &&& 192) >>> 6), .nat ((b1 &&& 128) >>> 7), .list []] := by
    simp only [decode, hcs, hext]
    simp only [ne_eq, not_true_eq_false, reduceIte, if_false]
    rw [drop_cons12]
    rw [if_pos hflag]
    rw [hlast]
    simp only [hp2, hslice, Rtp.value, List.replicate, List.set]
  exact ⟨_, hdec, rfl, by decide, rfl⟩

/-- Witness for C10's amended statement at the thirteen-byte buffer
`A0 00 00 00 00 00 00 00 00 00 00 00 00`. -/
theorem padding_empty_flagged_decode_witness :
    ∃ data, decode [0xa0, 0, 0, 0, 0, 0, 0, 0, 0, 0, 0, 0, 0] = .ok data ∧
      get_field data Rtp.Padding = .list [] ∧
      FieldValue.list [] ≠ FieldValue.none ∧
      get_field data Rtp.Payload =
        .list ((([0] : List Nat).drop (((0xa0 : Nat) &&& 15) * 4)).dropLast) :=
  padding_empty_flagged_decode 0xa0 0 0 0 0 0 0 0 0 0 0 0 [0] (by decide)
    (by decide) (by decide) (by decide)

end RtpPy
